import Mathlib

/-!
Shallow embedding of the cached, retrying data-fetch layer of a portfolio
site: the localStorage TTL cache (`getCachedData`, `setCachedData`,
`clearCache`, `fetchWithCache` from cache.js) and the retrying HTTP client
(`fetchAPI` from api.js).  JavaScript numbers are modelled as rationals
(with explicit NaN/Infinity where the code can produce them), JSON values
as an inductive type, and localStorage as a map from strings to the parse
outcome of the stored blob, together with per-key fault flags standing for
`getItem`/`setItem` throwing (e.g. quota exceeded).
-/

namespace Portfolio

/-- JSON values, as produced by a successful `JSON.parse`.  Object fields
are kept in order; duplicate keys are allowed (JS keeps the last one). -/
inductive JSVal : Type where
  | null : JSVal
  | bool (b : Bool) : JSVal
  | num (q : ℚ) : JSVal
  | str (s : String) : JSVal
  | arr (elems : List JSVal) : JSVal
  | obj (fields : List (String × JSVal)) : JSVal

/-- Last binding for a field name wins, matching the semantics of
`JSON.parse` for duplicate keys in an object literal. -/
def lookupField : List (String × JSVal) → String → Option JSVal
  | [], _ => none
  | (k, v) :: rest, name =>
    match lookupField rest name with
    | some w => some w
    | none => if k = name then some v else none

/-- JS property access `v.name` for the field names used by the cache
(`data`, `timestamp`): an object yields its field (or `undefined`, i.e.
`none`, when absent); primitives and arrays have no such own property and
yield `undefined`.  Access on `null` is not covered here: the code path
that destructures `null` throws and is modelled at its call site. -/
def jsGetField : JSVal → String → Option JSVal
  | .obj fields, name => lookupField fields name
  | _, _ => none

/-- JS truthiness of a possibly-`undefined` value (`none` = `undefined`). -/
def jsTruthy : Option JSVal → Bool
  | none => false
  | some .null => false
  | some (.bool b) => b
  | some (.num q) => decide (q ≠ 0)
  | some (.str s) => decide (s ≠ "")
  | some (.arr _) => true
  | some (.obj _) => true

/-- Result of JS `ToNumber`: NaN, a signed infinity (`inf true` = `+∞`),
or a finite number (modelled as a rational). -/
inductive JSNum : Type where
  | nan : JSNum
  | inf (pos : Bool) : JSNum
  | fin (q : ℚ) : JSNum
deriving DecidableEq, Repr

/-- Whitespace trimmed by JS `ToNumber` on strings (ASCII portion). -/
def jsIsWS (c : Char) : Bool :=
  c = ' ' || c = '\t' || c = '\n' || c = '\r' || c = '\x0b' || c = '\x0c'

def hexDigitVal (c : Char) : Option ℕ :=
  if '0' ≤ c ∧ c ≤ '9' then some (c.toNat - '0'.toNat)
  else if 'a' ≤ c ∧ c ≤ 'f' then some (c.toNat - 'a'.toNat + 10)
  else if 'A' ≤ c ∧ c ≤ 'F' then some (c.toNat - 'A'.toNat + 10)
  else none

/-- Value of a digit string in the given base, `none` if any character is
not a digit of that base. -/
def digitsVal (base : ℕ) : List Char → Option ℕ
  | [] => some 0
  | c :: cs => do
    let d ← hexDigitVal c
    if d < base then
      let rest ← digitsVal base cs
      return d * base ^ cs.length + rest
    else none

def decDigit (c : Char) : Bool := '0' ≤ c && c ≤ '9'

/-- Optional exponent part `[eE][+-]?digits` that must consume the rest of
the input; `none` means the tail is not a valid exponent (NaN overall). -/
def expPart : List Char → Option ℤ
  | [] => some 0
  | c :: cs =>
    if c = 'e' ∨ c = 'E' then
      match cs with
      | '+' :: ds => if ds ≠ [] ∧ ds.all decDigit then (digitsVal 10 ds).map Int.ofNat else none
      | '-' :: ds => if ds ≠ [] ∧ ds.all decDigit then (digitsVal 10 ds).map (fun n => -(n : ℤ)) else none
      | ds => if ds ≠ [] ∧ ds.all decDigit then (digitsVal 10 ds).map Int.ofNat else none
    else none

/-- Unsigned decimal literal `digits[.digits?][exp]` / `.digits[exp]`,
consuming all input; `none` = NaN. -/
def decLit (cs : List Char) : Option ℚ :=
  let ip := cs.takeWhile decDigit
  let rest := cs.dropWhile decDigit
  match rest with
  | '.' :: rest2 =>
    let fp := rest2.takeWhile decDigit
    let rest3 := rest2.dropWhile decDigit
    if ip = [] ∧ fp = [] then none
    else do
      let iv ← digitsVal 10 ip
      let fv ← digitsVal 10 fp
      let e ← expPart rest3
      return ((iv : ℚ) + (fv : ℚ) / (10 : ℚ) ^ fp.length) * (10 : ℚ) ^ e
  | _ =>
    if ip = [] then none
    else do
      let iv ← digitsVal 10 ip
      let e ← expPart rest
      return (iv : ℚ) * (10 : ℚ) ^ e

/-- Non-decimal integer literal `0x… / 0o… / 0b…` (no sign allowed). -/
def radixLit (cs : List Char) : Option ℚ :=
  match cs with
  | '0' :: c :: ds =>
    if c = 'x' ∨ c = 'X' then if ds = [] then none else (digitsVal 16 ds).map (fun n => (n : ℚ))
    else if c = 'o' ∨ c = 'O' then if ds = [] then none else (digitsVal 8 ds).map (fun n => (n : ℚ))
    else if c = 'b' ∨ c = 'B' then if ds = [] then none else (digitsVal 2 ds).map (fun n => (n : ℚ))
    else none
  | _ => none

/-- JS `ToNumber` on a string: trim whitespace; empty ↦ 0; then a signed
decimal literal, `Infinity`, or an unsigned radix literal; otherwise NaN. -/
def strToNumber (s : String) : JSNum :=
  let cs := ((s.toList.dropWhile jsIsWS).reverse.dropWhile jsIsWS).reverse
  match cs with
  | [] => .fin 0
  | _ =>
    match radixLit cs with
    | some q => .fin q
    | none =>
      let neg := cs.head? = some '-'
      let body := if cs.head? = some '-' ∨ cs.head? = some '+' then cs.tail else cs
      if body = "Infinity".toList then .inf (!neg)
      else
        match decLit body with
        | some q => .fin (if neg then -q else q)
        | none => .nan

/-- JS `ToNumber` of a value.  The `inArray` flag marks conversion of a
single array element, which goes through the array's string conversion
(so `true` stringifies to `"true"` and coerces to NaN, and `null`
stringifies to the empty string and coerces to 0). -/
def jsToNumber (inArray : Bool) : JSVal → JSNum
  | .null => .fin 0
  | .bool b => if inArray then .nan else .fin (if b then 1 else 0)
  | .num q => .fin q
  | .str s => strToNumber s
  | .arr [] => .fin 0
  | .arr [x] => jsToNumber true x
  | .arr (_ :: _ :: _) => .nan
  | .obj _ => .nan

/-- `ToNumber` of a possibly-`undefined` value (`undefined` ↦ NaN). -/
def tsToNumber : Option JSVal → JSNum
  | none => .nan
  | some v => jsToNumber false v

/-- The comparison `now - timestamp > CACHE_EXPIRY` of `getCachedData`,
with JS number semantics: a NaN timestamp makes the comparison false, as
does `+∞` (`now - ∞ = -∞`); `-∞` makes it true. -/
def jsExpired (now ttl : ℚ) : JSNum → Bool
  | .nan => false
  | .inf pos => !pos
  | .fin t => decide (now - t > ttl)

/-- A string stored in localStorage, classified by its `JSON.parse`
outcome: either it parses to a JSON value, or parsing throws (this also
stands for the empty string, which the code rejects up front via
`if (!cached) return null` with the same observable result). -/
inductive StoredBlob : Type where
  | json (v : JSVal) : StoredBlob
  | corrupt : StoredBlob

/-- localStorage together with per-key fault behaviour: `readFault k`
means `getItem(k)` throws, `writeFault k` means `setItem(k, …)` throws
(e.g. quota exceeded). -/
structure Storage : Type where
  items : String → Option StoredBlob
  readFault : String → Bool
  writeFault : String → Bool

def Storage.removeItem (σ : Storage) (k : String) : Storage :=
  { σ with items := fun j => if j = k then none else σ.items j }

def Storage.setItem (σ : Storage) (k : String) (b : StoredBlob) : Storage :=
  { σ with items := fun j => if j = k then some b else σ.items j }

/-- TTL of the cache: `CACHE_EXPIRY = 10 * 60 * 1000` ms. -/
def CACHE_EXPIRY : ℚ := 10 * 60 * 1000

/-- Namespaced key: `CACHE_PREFIX + key` with the prefix constant
`'portfolio_cache_'` inlined. -/
def cacheKeyOf (key : String) : String := "portfolio_cache_" ++ key

/-- `getCachedData(key)` from cache.js, with the ambient localStorage and
`Date.now()` made explicit.  Returns the possibly-updated storage (the
expired case eagerly removes the entry) and the returned value, where
`none` is JS `undefined` and `some .null` is JS `null`.  The `try`/`catch`
is modelled by the fault flag (read throws) and the `corrupt` blob (parse
throws) both yielding `null`; destructuring a parsed `null` also throws
and is caught. -/
def getCachedData (σ : Storage) (now : ℚ) (key : String) : Storage × Option JSVal :=
  let cacheKey := cacheKeyOf key
  if σ.readFault cacheKey then (σ, some JSVal.null)
  else
    match σ.items cacheKey with
    | none => (σ, some JSVal.null)
    | some StoredBlob.corrupt => (σ, some JSVal.null)
    | some (StoredBlob.json JSVal.null) => (σ, some JSVal.null)
    | some (StoredBlob.json parsed) =>
      if jsExpired now CACHE_EXPIRY (tsToNumber (jsGetField parsed "timestamp")) then
        (σ.removeItem cacheKey, some JSVal.null)
      else
        (σ, jsGetField parsed "data")

/-- The serialized cache entry `JSON.stringify({ data, timestamp })`, as
it reads back through `JSON.parse`: `JSON.stringify` drops a property
whose value is `undefined`, so an `undefined` datum leaves the blob with
only the `timestamp` field. -/
def entryBlob (data : Option JSVal) (now : ℚ) : JSVal :=
  match data with
  | some v => JSVal.obj [("data", v), ("timestamp", JSVal.num now)]
  | none => JSVal.obj [("timestamp", JSVal.num now)]

/-- `setCachedData(key, data)` from cache.js: writes the serialized entry
under the namespaced key; a throwing `setItem` (quota) is caught and
logged, leaving the storage unchanged. -/
def setCachedData (σ : Storage) (now : ℚ) (key : String) (data : Option JSVal) : Storage :=
  let cacheKey := cacheKeyOf key
  if σ.writeFault cacheKey then σ
  else σ.setItem cacheKey (StoredBlob.json (entryBlob data now))

/-- `clearCache(key)` from cache.js. -/
def clearCache (σ : Storage) (key : String) : Storage :=
  σ.removeItem (cacheKeyOf key)

/-- The result object of `fetchAPI` / `fetchWithCache` / a caller-supplied
fetch function: `{ success, data?, error?, fromCache? }`, where an absent
property is `none` (and the absent `fromCache` of a fresh result is
modelled as `false`, observably equivalent to `undefined` under JS
truthiness). -/
structure ApiResult : Type where
  success : Bool
  data : Option JSVal := none
  error : Option String := none
  fromCache : Bool := false

/-- Outcome of an awaited JS promise: resolved with a result, or
rejected with an error message. -/
inductive PromiseOutcome : Type where
  | ok (r : ApiResult) : PromiseOutcome
  | reject (e : String) : PromiseOutcome

/-- `fetchWithCache(cacheKey, fetchFunction)` from cache.js.  `fn` is the
settled outcome of the single `fetchFunction()` call the code makes on
either path; `t0` is `Date.now()` at call time (the cache read) and `t1`
is `Date.now()` when `fetchFunction`'s promise settles (the time the
background or awaited `setCachedData` stamps).  Returns the outcome the
caller observes and the final storage after the background revalidation
(if any) has settled.  On a truthy cache hit the caller's outcome is
computed before `fn` settles and the `.catch` swallows a rejection; on a
miss the rejection of the awaited `fetchFunction()` propagates. -/
def fetchWithCache (σ : Storage) (key : String) (fn : PromiseOutcome) (t0 t1 : ℚ) :
    PromiseOutcome × Storage :=
  let read := getCachedData σ t0 key
  let cached := read.2
  if jsTruthy cached then
    let final :=
      match fn with
      | .ok r => if r.success then setCachedData read.1 t1 key r.data else read.1
      | .reject _ => read.1
    (.ok { success := true, data := cached, fromCache := true }, final)
  else
    match fn with
    | .reject e => (.reject e, read.1)
    | .ok r =>
      if r.success then (.ok r, setCachedData read.1 t1 key r.data)
      else (.ok r, read.1)

/-- What one iteration of `fetchAPI`'s `try` block observes from the
outside world: either `fetch` itself rejects, or it yields a response
with a status, a status text, and a body whose `response.json()` either
parses to a JSON value or rejects with a message. -/
inductive AttemptOutcome : Type where
  | throwErr (msg : String) : AttemptOutcome
  | response (status : ℕ) (statusText : String) (body : Except String JSVal) : AttemptOutcome

/-- `response.ok`: the status code lies in 200–299. -/
def responseOk (status : ℕ) : Bool := 200 ≤ status && status ≤ 299

/-- The `try` block of `fetchAPI`: a rejecting `fetch` keeps its message;
a non-ok response is turned into a thrown
``Error(`HTTP Error: ${status} ${statusText}`)``; an ok response yields
its parsed body, with a rejecting `response.json()` keeping its message.
All failures land in the same `catch`. -/
def runAttempt : AttemptOutcome → Except String JSVal
  | .throwErr m => .error m
  | .response s st body =>
    if responseOk s then
      match body with
      | .ok d => .ok d
      | .error m => .error m
    else .error ("HTTP Error: " ++ toString s ++ " " ++ st)

/-- The exhaustion message `lastError?.message || 'Failed to fetch data
from API'`: the JS `||` also falls through when the message is the empty
string. -/
def exhaustMsg (lastErr : Option String) : String :=
  match lastErr with
  | some m => if m = "" then "Failed to fetch data from API" else m
  | none => "Failed to fetch data from API"

/-- Trace of one `fetchAPI` call: its returned result, how many transport
attempts ran, and the backoff delays passed to `sleep` (in order). -/
structure FetchRun : Type where
  result : ApiResult
  attempts : ℕ
  delays : List ℚ

/-- The retry loop of `fetchAPI`, starting at iteration `attempt` with
`fuel` iterations remaining (`fuel = maxRetries + 1 - attempt`) and
`lastErr` the message of the most recent failure.  On failure with
iterations remaining (`attempt < maxRetries`, i.e. fuel beyond this one),
it sleeps `retryDelay * 1.5 ^ attempt` and retries; the final failed
iteration falls out of the loop into the exhaustion return. -/
def fetchAPIAux (transport : ℕ → AttemptOutcome) (retryDelay : ℚ) :
    ℕ → ℕ → Option String → FetchRun
  | _, 0, lastErr =>
    { result := { success := false, error := some (exhaustMsg lastErr) },
      attempts := 0, delays := [] }
  | attempt, fuel + 1, _ =>
    match runAttempt (transport attempt) with
    | .ok d => { result := { success := true, data := some d }, attempts := 1, delays := [] }
    | .error msg =>
      if fuel = 0 then
        { result := { success := false, error := some (exhaustMsg (some msg)) },
          attempts := 1, delays := [] }
      else
        let rest := fetchAPIAux transport retryDelay (attempt + 1) fuel (some msg)
        { result := rest.result, attempts := rest.attempts + 1,
          delays := retryDelay * (3 / 2 : ℚ) ^ attempt :: rest.delays }

/-- `fetchAPI(endpoint, options, maxRetries, retryDelay)` from api.js,
abstracted over the transport: the fixed URL and options only select
which responses arrive, so the model takes the per-attempt outcomes
directly.  The defaults are `maxRetries = 3`, `retryDelay = 1000`. -/
def fetchAPI (transport : ℕ → AttemptOutcome) (maxRetries : ℕ) (retryDelay : ℚ) : FetchRun :=
  fetchAPIAux transport retryDelay 0 (maxRetries + 1) none

/-! Concrete storages used by witnesses and counterexamples. -/

/-- A fault-free storage holding a single blob under the namespaced key
for `"k"`. -/
def singleEntryStore (blob : StoredBlob) : Storage :=
  { items := fun j => if j = cacheKeyOf "k" then some blob else none,
    readFault := fun _ => false, writeFault := fun _ => false }

/-- The empty, fault-free storage. -/
def emptyStore : Storage :=
  { items := fun _ => none, readFault := fun _ => false, writeFault := fun _ => false }

/-- An empty storage whose reads always throw. -/
def readFaultStore : Storage :=
  { items := fun _ => none, readFault := fun _ => true, writeFault := fun _ => false }

/-- An empty storage whose writes always throw (quota exceeded). -/
def writeFaultStore : Storage :=
  { items := fun _ => none, readFault := fun _ => false, writeFault := fun _ => true }

/-- A well-formed cache entry stamped at time 0. -/
def stampedBlob : JSVal := JSVal.obj [("data", JSVal.str "x"), ("timestamp", JSVal.num 0)]

/-- An entry whose timestamp is a non-numeric string. -/
def nanTsBlob : JSVal := JSVal.obj [("data", JSVal.num 7), ("timestamp", JSVal.str "abc")]

/-! Shared lemmas about reading the cache. -/

/-- Reading a well-formed, unexpired entry returns its datum and leaves
the storage untouched. -/
theorem getCachedData_fresh (σ : Storage) (key : String) (blob : JSVal) (v : Option JSVal)
    (ts t : ℚ)
    (hr : σ.readFault (cacheKeyOf key) = false)
    (hitem : σ.items (cacheKeyOf key) = some (StoredBlob.json blob))
    (hts : jsGetField blob "timestamp" = some (JSVal.num ts))
    (hdata : jsGetField blob "data" = v)
    (hfresh : ¬(t - ts > CACHE_EXPIRY)) :
    getCachedData σ t key = (σ, v) := by
  cases blob <;> simp only [jsGetField] at hts hdata <;> try exact absurd hts (by simp)
  simp [getCachedData, hr, hitem, jsGetField, hts, hdata, tsToNumber, jsToNumber, jsExpired,
    hfresh]

/-- Reading a missing entry returns `null` and leaves the storage
untouched. -/
theorem getCachedData_absent (σ : Storage) (key : String) (t : ℚ)
    (hr : σ.readFault (cacheKeyOf key) = false)
    (hnone : σ.items (cacheKeyOf key) = none) :
    getCachedData σ t key = (σ, some JSVal.null) := by
  simp [getCachedData, hr, hnone]

/-- Reading an entry with a numeric timestamp past the TTL returns `null`
and removes it. -/
theorem getCachedData_expired (σ : Storage) (key : String) (blob : JSVal) (ts t : ℚ)
    (hr : σ.readFault (cacheKeyOf key) = false)
    (hitem : σ.items (cacheKeyOf key) = some (StoredBlob.json blob))
    (hts : jsGetField blob "timestamp" = some (JSVal.num ts))
    (hexp : t - ts > CACHE_EXPIRY) :
    getCachedData σ t key = (σ.removeItem (cacheKeyOf key), some JSVal.null) := by
  cases blob <;> simp only [jsGetField] at hts <;> try exact absurd hts (by simp)
  simp [getCachedData, hr, hitem, jsGetField, hts, tsToNumber, jsToNumber, jsExpired, hexp]

/-- A fault-free `set` followed by a `get` within the TTL returns the
datum just written. -/
theorem getset_round (σ : Storage) (key : String) (v : JSVal) (t0 t1 : ℚ)
    (hw : σ.writeFault (cacheKeyOf key) = false)
    (hr : σ.readFault (cacheKeyOf key) = false)
    (httl : ¬(t1 - t0 > CACHE_EXPIRY)) :
    (getCachedData (setCachedData σ t0 key (some v)) t1 key).2 = some v := by
  simp only [setCachedData, hw, if_false, Bool.false_eq_true, getCachedData, Storage.setItem]
  simp only [hr, Bool.false_eq_true, if_false, if_pos rfl]
  cases v <;>
    simp [jsGetField, lookupField, tsToNumber, jsToNumber, jsExpired, httl, entryBlob]

/-! Claim theorems for the TTL cache. -/

/-- C6: for every key `k` and JSON value `v`, `setCachedData(k, v)`
immediately followed by `getCachedData(k)` within the TTL returns `v`
unchanged (structural equality), provided the storage does not fault on
that key. -/
theorem cache_round_trip (σ : Storage) (key : String) (v : JSVal) (t0 t1 : ℚ)
    (hw : σ.writeFault (cacheKeyOf key) = false)
    (hr : σ.readFault (cacheKeyOf key) = false)
    (httl : ¬(t1 - t0 > CACHE_EXPIRY)) :
    (getCachedData (setCachedData σ t0 key (some v)) t1 key).2 = some v :=
  getset_round σ key v t0 t1 hw hr httl

/-- C6 witness: `setCachedData('blogs', [{id:1}])` then
`getCachedData('blogs')` at the same instant returns `[{id:1}]`. -/
theorem cache_round_trip_witness :
    ¬((0 : ℚ) - 0 > CACHE_EXPIRY) ∧
      (getCachedData
          (setCachedData emptyStore 0 "blogs" (some (JSVal.arr [JSVal.obj [("id", JSVal.num 1)]])))
          0 "blogs").2 = some (JSVal.arr [JSVal.obj [("id", JSVal.num 1)]]) :=
  ⟨by norm_num [CACHE_EXPIRY],
   cache_round_trip emptyStore "blogs" (JSVal.arr [JSVal.obj [("id", JSVal.num 1)]]) 0 0 rfl rfl
     (by norm_num [CACHE_EXPIRY])⟩

/-- C7: an entry whose numeric timestamp satisfies `now - timestamp >
TTL` reads as absent (`null`) and is removed, so a second read is also
absent; an entry with `now - timestamp ≤ TTL` is returned as present. -/
theorem cache_expiry (σ : Storage) (key : String) (blob v : JSVal) (ts t : ℚ)
    (hr : σ.readFault (cacheKeyOf key) = false)
    (hitem : σ.items (cacheKeyOf key) = some (StoredBlob.json blob))
    (hts : jsGetField blob "timestamp" = some (JSVal.num ts))
    (hdata : jsGetField blob "data" = some v) :
    (t - ts > CACHE_EXPIRY →
      (getCachedData σ t key).2 = some JSVal.null ∧
      (getCachedData σ t key).1.items (cacheKeyOf key) = none ∧
      ∀ u : ℚ, (getCachedData (getCachedData σ t key).1 u key).2 = some JSVal.null) ∧
    (¬(t - ts > CACHE_EXPIRY) → (getCachedData σ t key).2 = some v) := by
  cases blob <;> simp only [jsGetField] at hts hdata <;> try exact absurd hts (by simp)
  constructor
  · intro hexp
    simp [getCachedData, hr, hitem, jsGetField, hts, tsToNumber, jsToNumber, jsExpired, hexp,
      Storage.removeItem]
  · intro hfresh
    simp [getCachedData, hr, hitem, jsGetField, hts, hdata, tsToNumber, jsToNumber, jsExpired,
      hfresh]

/-- C7 witness: an entry stamped at time 0 read at `TTL + 1` is expired
(absent and removed, with the second read absent too), while read at
exactly `TTL` it is still returned. -/
theorem cache_expiry_witness :
    ((CACHE_EXPIRY + 1 : ℚ) - 0 > CACHE_EXPIRY) ∧
    (getCachedData (singleEntryStore (StoredBlob.json stampedBlob)) (CACHE_EXPIRY + 1) "k").2
      = some JSVal.null ∧
    (getCachedData (singleEntryStore (StoredBlob.json stampedBlob)) (CACHE_EXPIRY + 1)
      "k").1.items (cacheKeyOf "k") = none ∧
    (∀ u : ℚ,
      (getCachedData
        (getCachedData (singleEntryStore (StoredBlob.json stampedBlob)) (CACHE_EXPIRY + 1) "k").1
        u "k").2 = some JSVal.null) ∧
    (getCachedData (singleEntryStore (StoredBlob.json stampedBlob)) CACHE_EXPIRY "k").2
      = some (JSVal.str "x") := by
  have h := cache_expiry (singleEntryStore (StoredBlob.json stampedBlob)) "k" stampedBlob
    (JSVal.str "x") 0 (CACHE_EXPIRY + 1) rfl rfl rfl rfl
  have h2 := cache_expiry (singleEntryStore (StoredBlob.json stampedBlob)) "k" stampedBlob
    (JSVal.str "x") 0 CACHE_EXPIRY rfl rfl rfl rfl
  have hexp := h.1 (by norm_num)
  exact ⟨by norm_num, hexp.1, hexp.2.1, hexp.2.2, h2.2 (by norm_num)⟩

/-- C9: storage-layer faults are recovered locally: a throwing read makes
`getCachedData` return absent (`null`); a corrupt stored blob (failing
`JSON.parse`) makes it return absent; a throwing write makes
`setCachedData` return with the storage unchanged.  None of these
propagate to the caller. -/
theorem cache_fault_recovery :
    (∀ (σ : Storage) (t : ℚ) (key : String), σ.readFault (cacheKeyOf key) = true →
      getCachedData σ t key = (σ, some JSVal.null)) ∧
    (∀ (σ : Storage) (t : ℚ) (key : String), σ.readFault (cacheKeyOf key) = false →
      σ.items (cacheKeyOf key) = some StoredBlob.corrupt →
      getCachedData σ t key = (σ, some JSVal.null)) ∧
    (∀ (σ : Storage) (t : ℚ) (key : String) (d : Option JSVal),
      σ.writeFault (cacheKeyOf key) = true → setCachedData σ t key d = σ) := by
  refine ⟨fun σ t key h => ?_, fun σ t key h hc => ?_, fun σ t key d h => ?_⟩
  · simp [getCachedData, h]
  · simp [getCachedData, h, hc]
  · simp [setCachedData, h]

/-- C9 witness: a storage that faults on read returns `null`; a corrupt
blob returns `null`; a write fault leaves the storage unchanged. -/
theorem cache_fault_recovery_witness :
    getCachedData readFaultStore 0 "k" = (readFaultStore, some JSVal.null) ∧
    getCachedData (singleEntryStore StoredBlob.corrupt) 0 "k"
      = (singleEntryStore StoredBlob.corrupt, some JSVal.null) ∧
    setCachedData writeFaultStore 0 "k" (some (JSVal.num 1)) = writeFaultStore :=
  ⟨cache_fault_recovery.1 readFaultStore 0 "k" rfl,
   cache_fault_recovery.2.1 (singleEntryStore StoredBlob.corrupt) 0 "k" rfl rfl,
   cache_fault_recovery.2.2 writeFaultStore 0 "k" (some (JSVal.num 1)) rfl⟩

/-- C10 counterexample: the claim fails as stated.  A stored entry whose
`timestamp` is JSON `null` has a non-numeric timestamp, yet JS coerces
`null` to `0`, so at `now = TTL + 1` the comparison is true and the entry
IS deleted and treated as absent.  Moreover a blob that parses to JSON
`null` (timestamp missing) is also treated as absent, because
destructuring `null` throws into the catch. -/
theorem cache_nan_timestamp_cex :
    ((getCachedData
        (singleEntryStore (StoredBlob.json
          (JSVal.obj [("data", JSVal.num 1), ("timestamp", JSVal.null)])))
        (CACHE_EXPIRY + 1) "k").2 = some JSVal.null ∧
      (getCachedData
        (singleEntryStore (StoredBlob.json
          (JSVal.obj [("data", JSVal.num 1), ("timestamp", JSVal.null)])))
        (CACHE_EXPIRY + 1) "k").1.items (cacheKeyOf "k") = none) ∧
    (getCachedData (singleEntryStore (StoredBlob.json JSVal.null)) 0 "k").2
      = some JSVal.null := by
  refine ⟨⟨?_, ?_⟩, ?_⟩
  · norm_num [getCachedData, singleEntryStore, jsGetField, lookupField, tsToNumber,
      jsToNumber, jsExpired, CACHE_EXPIRY]
  · norm_num [getCachedData, singleEntryStore, jsGetField, lookupField, tsToNumber,
      jsToNumber, jsExpired, CACHE_EXPIRY, Storage.removeItem]
  · simp [getCachedData, singleEntryStore]

/-- C10 (amended): for a stored blob that parses as a JSON value other
than `null`, if the `timestamp` field is missing or its JS numeric
coercion is NaN (e.g. a non-numeric string, an object, an array of two or
more elements), the expiry comparison is false, so the entry is never
deleted and its `data` field (possibly `undefined`) is returned as a
never-expiring hit. -/
theorem cache_nan_timestamp (σ : Storage) (key : String) (blob : JSVal) (t : ℚ)
    (hr : σ.readFault (cacheKeyOf key) = false)
    (hitem : σ.items (cacheKeyOf key) = some (StoredBlob.json blob))
    (hnn : blob ≠ JSVal.null)
    (hnan : tsToNumber (jsGetField blob "timestamp") = JSNum.nan) :
    getCachedData σ t key = (σ, jsGetField blob "data") := by
  cases blob
  · exact absurd rfl hnn
  all_goals simp [getCachedData, hr, hitem, hnan, jsExpired]

/-- C10 witness: a fresh-looking entry whose timestamp is the string
`"abc"` is returned as a hit long after any TTL, with the store
untouched. -/
theorem cache_nan_timestamp_witness :
    getCachedData (singleEntryStore (StoredBlob.json nanTsBlob)) (CACHE_EXPIRY * 1000) "k"
      = (singleEntryStore (StoredBlob.json nanTsBlob), some (JSVal.num 7)) :=
  cache_nan_timestamp (singleEntryStore (StoredBlob.json nanTsBlob)) "k" nanTsBlob
    (CACHE_EXPIRY * 1000) rfl rfl (by simp [nanTsBlob]) rfl

/-! Claim theorems for the cached fetch orchestrator. -/

/-- A valid cache entry whose datum is the JSON value `false`: valid and
unexpired at time 0, but falsy under the `if (cached)` test. -/
def falsyEntryStore : Storage :=
  singleEntryStore (StoredBlob.json
    (JSVal.obj [("data", JSVal.bool false), ("timestamp", JSVal.num 0)]))

/-- C1 counterexample: the claim fails as stated.  `falsyEntryStore`
holds a valid, unexpired entry for `"k"` (read back as the JSON value
`false`), yet `fetchWithCache` takes the cold path — it resolves with the
fetch function's fresh result, not with the old cached value tagged
`fromCache: true` — because the code guards the hit path with JS
truthiness of the cached datum. -/
theorem fetchWithCache_hit_cex :
    (getCachedData falsyEntryStore 0 "k").2 = some (JSVal.bool false) ∧
    ¬((0 : ℚ) - 0 > CACHE_EXPIRY) ∧
    (fetchWithCache falsyEntryStore "k"
        (PromiseOutcome.ok { success := true, data := some (JSVal.num 42) }) 0 0).1
      = PromiseOutcome.ok { success := true, data := some (JSVal.num 42) } ∧
    (fetchWithCache falsyEntryStore "k"
        (PromiseOutcome.ok { success := true, data := some (JSVal.num 42) }) 0 0).1
      ≠ PromiseOutcome.ok
          { success := true, data := some (JSVal.bool false), fromCache := true } := by
  have hget : getCachedData falsyEntryStore 0 "k" = (falsyEntryStore, some (JSVal.bool false)) :=
    getCachedData_fresh falsyEntryStore "k" _ _ 0 0 rfl rfl rfl rfl (by norm_num [CACHE_EXPIRY])
  refine ⟨by rw [hget], by norm_num [CACHE_EXPIRY], ?_, ?_⟩
  · simp [fetchWithCache, hget, jsTruthy]
  · simp [fetchWithCache, hget, jsTruthy]

/-- C1 (amended): for every key `k` with a valid (unexpired) cache entry
whose datum is truthy, and every `fetchFn` resolving with a successful
result, `fetchWithCache(k, fetchFn)` resolves with the OLD cached value
tagged `fromCache: true`, and the background call overwrites the cache
entry for `k` with the fresh data, so a subsequent `get(k)` within the
new entry's TTL reflects the NEW value. -/
theorem fetchWithCache_hit (σ : Storage) (key : String) (blob v : JSVal) (ts t0 t1 : ℚ)
    (r : ApiResult)
    (hr : σ.readFault (cacheKeyOf key) = false)
    (hw : σ.writeFault (cacheKeyOf key) = false)
    (hitem : σ.items (cacheKeyOf key) = some (StoredBlob.json blob))
    (hts : jsGetField blob "timestamp" = some (JSVal.num ts))
    (hdata : jsGetField blob "data" = some v)
    (hfresh : ¬(t0 - ts > CACHE_EXPIRY))
    (htruthy : jsTruthy (some v) = true)
    (hsucc : r.success = true) :
    (fetchWithCache σ key (PromiseOutcome.ok r) t0 t1).1
      = PromiseOutcome.ok { success := true, data := some v, fromCache := true } ∧
    (fetchWithCache σ key (PromiseOutcome.ok r) t0 t1).2 = setCachedData σ t1 key r.data ∧
    ∀ (w : JSVal) (t2 : ℚ), r.data = some w → ¬(t2 - t1 > CACHE_EXPIRY) →
      (getCachedData (fetchWithCache σ key (PromiseOutcome.ok r) t0 t1).2 t2 key).2 = some w := by
  have hget : getCachedData σ t0 key = (σ, some v) :=
    getCachedData_fresh σ key blob (some v) ts t0 hr hitem hts hdata hfresh
  have h1 : fetchWithCache σ key (PromiseOutcome.ok r) t0 t1
      = (PromiseOutcome.ok { success := true, data := some v, fromCache := true },
         setCachedData σ t1 key r.data) := by
    simp [fetchWithCache, hget, htruthy, hsucc]
  refine ⟨by rw [h1], by rw [h1], fun w t2 hw2 httl2 => ?_⟩
  rw [h1]
  exact hw2 ▸ getset_round σ key w t1 t2 hw hr httl2

/-- C1 witness: a truthy cached entry (`"old"`, stamped at 0) is returned
tagged `fromCache: true`, and after the successful background call a
subsequent read returns the fresh value `"new"`. -/
theorem fetchWithCache_hit_witness :
    ¬((1 : ℚ) - 0 > CACHE_EXPIRY) ∧ jsTruthy (some (JSVal.str "old")) = true ∧
    (fetchWithCache (singleEntryStore (StoredBlob.json
        (JSVal.obj [("data", JSVal.str "old"), ("timestamp", JSVal.num 0)]))) "k"
        (PromiseOutcome.ok { success := true, data := some (JSVal.str "new") }) 1 2).1
      = PromiseOutcome.ok { success := true, data := some (JSVal.str "old"), fromCache := true } ∧
    (getCachedData
        (fetchWithCache (singleEntryStore (StoredBlob.json
          (JSVal.obj [("data", JSVal.str "old"), ("timestamp", JSVal.num 0)]))) "k"
          (PromiseOutcome.ok { success := true, data := some (JSVal.str "new") }) 1 2).2
        3 "k").2 = some (JSVal.str "new") := by
  have h := fetchWithCache_hit (singleEntryStore (StoredBlob.json
      (JSVal.obj [("data", JSVal.str "old"), ("timestamp", JSVal.num 0)]))) "k"
      (JSVal.obj [("data", JSVal.str "old"), ("timestamp", JSVal.num 0)])
      (JSVal.str "old") 0 1 2 { success := true, data := some (JSVal.str "new") }
      rfl rfl rfl rfl rfl (by norm_num [CACHE_EXPIRY]) rfl rfl
  exact ⟨by norm_num [CACHE_EXPIRY], rfl, h.1,
    h.2.2 (JSVal.str "new") 3 rfl (by norm_num [CACHE_EXPIRY])⟩

/-- C2: with no cache entry for `k` (or only an expired one),
`fetchWithCache(k, fetchFn)` awaits `fetchFn` and resolves with exactly
its result; on success the cache entry for `k` is populated with the
fresh data (a subsequent `get(k)` within the TTL returns it), and on
failure the storage is exactly the post-read storage, still with no entry
for `k`. -/
theorem fetchWithCache_cold (σ : Storage) (key : String) (fn : PromiseOutcome) (t0 t1 : ℚ)
    (hr : σ.readFault (cacheKeyOf key) = false)
    (hmiss : σ.items (cacheKeyOf key) = none ∨
      ∃ blob ts, σ.items (cacheKeyOf key) = some (StoredBlob.json blob) ∧
        jsGetField blob "timestamp" = some (JSVal.num ts) ∧ t0 - ts > CACHE_EXPIRY) :
    (∀ r : ApiResult, fn = PromiseOutcome.ok r →
      (fetchWithCache σ key fn t0 t1).1 = PromiseOutcome.ok r) ∧
    (∀ r : ApiResult, fn = PromiseOutcome.ok r → r.success = true →
      σ.writeFault (cacheKeyOf key) = false →
      ∀ (w : JSVal) (t2 : ℚ), r.data = some w → ¬(t2 - t1 > CACHE_EXPIRY) →
        (getCachedData (fetchWithCache σ key fn t0 t1).2 t2 key).2 = some w) ∧
    (∀ r : ApiResult, fn = PromiseOutcome.ok r → r.success = false →
      (fetchWithCache σ key fn t0 t1).2 = (getCachedData σ t0 key).1 ∧
      (fetchWithCache σ key fn t0 t1).2.items (cacheKeyOf key) = none) := by
  obtain hget | ⟨blob, ts, hitem, hts, hexp⟩ := hmiss
  case inl =>
    have hget2 : getCachedData σ t0 key = (σ, some JSVal.null) :=
      getCachedData_absent σ key t0 hr hget
    refine ⟨fun r hr2 => ?_, fun r hr2 hs hw w t2 hw2 httl2 => ?_, fun r hr2 hs => ?_⟩
    · subst hr2
      cases hsv : r.success <;> simp [fetchWithCache, hget2, jsTruthy, hsv]
    · subst hr2
      have h1 : (fetchWithCache σ key (PromiseOutcome.ok r) t0 t1).2
          = setCachedData σ t1 key r.data := by
        simp [fetchWithCache, hget2, jsTruthy, hs]
      rw [h1]
      exact hw2 ▸ getset_round σ key w t1 t2 hw hr httl2
    · subst hr2
      have h1 : (fetchWithCache σ key (PromiseOutcome.ok r) t0 t1).2 = σ := by
        simp [fetchWithCache, hget2, jsTruthy, hs]
      rw [h1, hget2]
      exact ⟨rfl, hget⟩
  case inr =>
    have hget2 : getCachedData σ t0 key = (σ.removeItem (cacheKeyOf key), some JSVal.null) :=
      getCachedData_expired σ key blob ts t0 hr hitem hts hexp
    have hrem_r : (σ.removeItem (cacheKeyOf key)).readFault (cacheKeyOf key) = false := hr
    have hrem_i : (σ.removeItem (cacheKeyOf key)).items (cacheKeyOf key) = none := by
      simp [Storage.removeItem]
    refine ⟨fun r hr2 => ?_, fun r hr2 hs hw w t2 hw2 httl2 => ?_, fun r hr2 hs => ?_⟩
    · subst hr2
      cases hsv : r.success <;> simp [fetchWithCache, hget2, jsTruthy, hsv]
    · subst hr2
      have h1 : (fetchWithCache σ key (PromiseOutcome.ok r) t0 t1).2
          = setCachedData (σ.removeItem (cacheKeyOf key)) t1 key r.data := by
        simp [fetchWithCache, hget2, jsTruthy, hs]
      rw [h1]
      exact hw2 ▸ getset_round (σ.removeItem (cacheKeyOf key)) key w t1 t2 hw hrem_r httl2
    · subst hr2
      have h1 : (fetchWithCache σ key (PromiseOutcome.ok r) t0 t1).2
          = σ.removeItem (cacheKeyOf key) := by
        simp [fetchWithCache, hget2, jsTruthy, hs]
      rw [h1, hget2]
      exact ⟨rfl, hrem_i⟩

/-- C2 witness: on an empty cache, a successful fetch result is returned
as-is and populates the cache, and a failed fetch result leaves no entry
for the key. -/
theorem fetchWithCache_cold_witness :
    (fetchWithCache emptyStore "k"
        (PromiseOutcome.ok { success := true, data := some (JSVal.num 5) }) 0 0).1
      = PromiseOutcome.ok { success := true, data := some (JSVal.num 5) } ∧
    (getCachedData
        (fetchWithCache emptyStore "k"
          (PromiseOutcome.ok { success := true, data := some (JSVal.num 5) }) 0 0).2 0 "k").2
      = some (JSVal.num 5) ∧
    (fetchWithCache emptyStore "k"
        (PromiseOutcome.ok { success := false, error := some "boom" }) 0 0).2.items
      (cacheKeyOf "k") = none := by
  have h := fetchWithCache_cold emptyStore "k"
    (PromiseOutcome.ok { success := true, data := some (JSVal.num 5) }) 0 0 rfl (Or.inl rfl)
  have h2 := fetchWithCache_cold emptyStore "k"
    (PromiseOutcome.ok { success := false, error := some "boom" }) 0 0 rfl (Or.inl rfl)
  exact ⟨h.1 _ rfl,
    h.2.1 _ rfl rfl rfl (JSVal.num 5) 0 rfl (by norm_num [CACHE_EXPIRY]),
    (h2.2.2 _ rfl rfl).2⟩

/-- C8: when a hit returns a cached value and the background revalidation
rejects or resolves unsuccessfully, the failure never raises to the
caller (the result is still the cached value tagged `fromCache: true`),
the storage is left exactly as it was, and a later `getCachedData` within
the entry's TTL still returns the previously cached value unchanged. -/
theorem fetchWithCache_background_failure (σ : Storage) (key : String) (blob v : JSVal)
    (ts t0 t1 : ℚ) (fn : PromiseOutcome)
    (hr : σ.readFault (cacheKeyOf key) = false)
    (hitem : σ.items (cacheKeyOf key) = some (StoredBlob.json blob))
    (hts : jsGetField blob "timestamp" = some (JSVal.num ts))
    (hdata : jsGetField blob "data" = some v)
    (hfresh : ¬(t0 - ts > CACHE_EXPIRY))
    (htruthy : jsTruthy (some v) = true)
    (hfail : (∃ e, fn = PromiseOutcome.reject e) ∨
      ∃ r, fn = PromiseOutcome.ok r ∧ r.success = false) :
    (fetchWithCache σ key fn t0 t1).1
      = PromiseOutcome.ok { success := true, data := some v, fromCache := true } ∧
    (fetchWithCache σ key fn t0 t1).2 = σ ∧
    ∀ t2 : ℚ, ¬(t2 - ts > CACHE_EXPIRY) →
      (getCachedData (fetchWithCache σ key fn t0 t1).2 t2 key).2 = some v := by
  have hget : getCachedData σ t0 key = (σ, some v) :=
    getCachedData_fresh σ key blob (some v) ts t0 hr hitem hts hdata hfresh
  have h1 : fetchWithCache σ key fn t0 t1
      = (PromiseOutcome.ok { success := true, data := some v, fromCache := true }, σ) := by
    obtain ⟨e, he⟩ | ⟨r, hrr, hs⟩ := hfail
    · subst he; simp [fetchWithCache, hget, htruthy]
    · subst hrr; simp [fetchWithCache, hget, htruthy, hs]
  refine ⟨by rw [h1], by rw [h1], fun t2 httl2 => ?_⟩
  rw [h1]
  exact congrArg Prod.snd
    (getCachedData_fresh σ key blob (some v) ts t2 hr hitem hts hdata httl2)

/-- C8 witness: with a cached `"old"` value, a rejecting background
revalidation (and likewise an unsuccessful one) leaves the caller's
result and a later read unchanged. -/
theorem fetchWithCache_background_failure_witness :
    (fetchWithCache (singleEntryStore (StoredBlob.json
        (JSVal.obj [("data", JSVal.str "old"), ("timestamp", JSVal.num 0)]))) "k"
        (PromiseOutcome.reject "netfail") 1 2).1
      = PromiseOutcome.ok { success := true, data := some (JSVal.str "old"), fromCache := true } ∧
    (getCachedData
        (fetchWithCache (singleEntryStore (StoredBlob.json
          (JSVal.obj [("data", JSVal.str "old"), ("timestamp", JSVal.num 0)]))) "k"
          (PromiseOutcome.reject "netfail") 1 2).2 3 "k").2 = some (JSVal.str "old") ∧
    (fetchWithCache (singleEntryStore (StoredBlob.json
        (JSVal.obj [("data", JSVal.str "old"), ("timestamp", JSVal.num 0)]))) "k"
        (PromiseOutcome.ok { success := false, error := some "HTTP Error: 500 " }) 1 2).2
      = singleEntryStore (StoredBlob.json
          (JSVal.obj [("data", JSVal.str "old"), ("timestamp", JSVal.num 0)])) := by
  have h := fetchWithCache_background_failure (singleEntryStore (StoredBlob.json
      (JSVal.obj [("data", JSVal.str "old"), ("timestamp", JSVal.num 0)]))) "k"
      (JSVal.obj [("data", JSVal.str "old"), ("timestamp", JSVal.num 0)]) (JSVal.str "old")
      0 1 2 (PromiseOutcome.reject "netfail") rfl rfl rfl rfl (by norm_num [CACHE_EXPIRY]) rfl
      (Or.inl ⟨"netfail", rfl⟩)
  have h2 := fetchWithCache_background_failure (singleEntryStore (StoredBlob.json
      (JSVal.obj [("data", JSVal.str "old"), ("timestamp", JSVal.num 0)]))) "k"
      (JSVal.obj [("data", JSVal.str "old"), ("timestamp", JSVal.num 0)]) (JSVal.str "old")
      0 1 2 (PromiseOutcome.ok { success := false, error := some "HTTP Error: 500 " })
      rfl rfl rfl rfl (by norm_num [CACHE_EXPIRY]) rfl
      (Or.inr ⟨_, rfl, rfl⟩)
  exact ⟨h.1, h.2.2 3 (by norm_num [CACHE_EXPIRY]), h2.2.1⟩

/-! Shared lemmas about the retry loop of the HTTP client. -/

theorem fetchAPIAux_attempts_le (t : ℕ → AttemptOutcome) (d : ℚ) :
    ∀ (f a : ℕ) (e : Option String), (fetchAPIAux t d a f e).attempts ≤ f := by
  intro f
  induction f with
  | zero => intro a e; simp [fetchAPIAux]
  | succ f ih =>
    intro a e
    unfold fetchAPIAux
    rcases hra : runAttempt (t a) with m | d2
    · by_cases hf : f = 0 <;> simp [hra, hf]
      exact ih (a + 1) (some m)
    · simp [hra]

theorem fetchAPIAux_attempts_pos (t : ℕ → AttemptOutcome) (d : ℚ) :
    ∀ (f a : ℕ) (e : Option String), 1 ≤ f → 1 ≤ (fetchAPIAux t d a f e).attempts := by
  intro f a e hf
  match f, hf with
  | f + 1, _ =>
    unfold fetchAPIAux
    rcases hra : runAttempt (t a) with m | d2
    · by_cases hfz : f = 0 <;> simp [hra, hfz]
    · simp [hra]

theorem fetchAPIAux_delays_len (t : ℕ → AttemptOutcome) (d : ℚ) :
    ∀ (f a : ℕ) (e : Option String), 1 ≤ f →
      (fetchAPIAux t d a f e).delays.length + 1 = (fetchAPIAux t d a f e).attempts := by
  intro f
  induction f with
  | zero => intro a e hf; omega
  | succ f ih =>
    intro a e _
    unfold fetchAPIAux
    rcases hra : runAttempt (t a) with m | d2
    · by_cases hfz : f = 0
      · simp [hra, hfz]
      · simp only [hra, hfz, if_false]
        simpa using ih (a + 1) (some m) (by omega)
    · simp [hra]

theorem fetchAPIAux_delay_formula (t : ℕ → AttemptOutcome) (d : ℚ) :
    ∀ (f a : ℕ) (e : Option String) (k : ℕ),
      k < (fetchAPIAux t d a f e).delays.length →
      (fetchAPIAux t d a f e).delays[k]? = some (d * (3 / 2 : ℚ) ^ (a + k)) := by
  intro f
  induction f with
  | zero => intro a e k hk; simp [fetchAPIAux] at hk
  | succ f ih =>
    intro a e k hk
    simp only [fetchAPIAux] at hk ⊢
    rcases hra : runAttempt (t a) with m | d2
    · by_cases hfz : f = 0
      · simp [hra, hfz] at hk
      · simp only [hra, hfz, if_false] at hk ⊢
        match k with
        | 0 => simp
        | k + 1 =>
          have hk2 : k < (fetchAPIAux t d (a + 1) f (some m)).delays.length := by
            simpa using hk
          have h3 := ih (a + 1) (some m) k hk2
          simpa [Nat.add_right_comm, Nat.add_assoc] using h3
    · simp [hra] at hk


theorem fetchAPIAux_first_success (t : ℕ → AttemptOutcome) (d : ℚ) :
    ∀ (k f a : ℕ) (e : Option String), k < f →
      (∀ j, j < k → ∃ m, runAttempt (t (a + j)) = Except.error m) →
      (∃ v, runAttempt (t (a + k)) = Except.ok v) →
      (fetchAPIAux t d a f e).attempts = k + 1 ∧
        (fetchAPIAux t d a f e).result.success = true := by
  intro k
  induction k with
  | zero =>
    intro f a e hf _ hok
    obtain ⟨v, hv⟩ := hok
    cases f with
    | zero => omega
    | succ f =>
      simp only [fetchAPIAux]
      rw [show a + 0 = a from rfl] at hv
      simp [hv]
  | succ k ih =>
    intro f a e hf hprev hok
    obtain ⟨m, hm⟩ := hprev 0 (Nat.succ_pos k)
    rw [show a + 0 = a from rfl] at hm
    cases f with
    | zero => omega
    | succ f =>
      have hfz : f ≠ 0 := by omega
      simp only [fetchAPIAux, hm, hfz, if_false]
      have hprev2 : ∀ j, j < k → ∃ m2, runAttempt (t (a + 1 + j)) = Except.error m2 := by
        intro j hj
        have h4 := hprev (j + 1) (by omega)
        rwa [show a + (j + 1) = a + 1 + j by omega] at h4
      have hok2 : ∃ v, runAttempt (t (a + 1 + k)) = Except.ok v := by
        rwa [show a + (k + 1) = a + 1 + k by omega] at hok
      have h5 := ih f (a + 1) (some m) (by omega) hprev2 hok2
      simp [h5.1, h5.2]

theorem fetchAPIAux_tagged (t : ℕ → AttemptOutcome) (d : ℚ) :
    ∀ (f a : ℕ) (e : Option String),
      ((fetchAPIAux t d a f e).result.success = true ∧
        (fetchAPIAux t d a f e).result.error = none) ∨
      ((fetchAPIAux t d a f e).result.success = false ∧
        ∃ m, (fetchAPIAux t d a f e).result.error = some m) := by
  intro f
  induction f with
  | zero => intro a e; simp [fetchAPIAux]
  | succ f ih =>
    intro a e
    simp only [fetchAPIAux]
    rcases hra : runAttempt (t a) with m | d2
    · by_cases hfz : f = 0
      · simp [hra, hfz]
      · simpa [hra, hfz] using ih (a + 1) (some m)
    · simp [hra]

theorem fetchAPIAux_exhaust (t : ℕ → AttemptOutcome) (d : ℚ) (msgs : ℕ → String) :
    ∀ (f a : ℕ) (e : Option String), 1 ≤ f →
      (∀ j, j < f → runAttempt (t (a + j)) = Except.error (msgs (a + j))) →
      (fetchAPIAux t d a f e).result
        = { success := false, error := some (exhaustMsg (some (msgs (a + f - 1)))) } := by
  intro f
  induction f with
  | zero => intro a e hf; omega
  | succ f ih =>
    intro a e _ hall
    have hm := hall 0 (Nat.succ_pos f)
    rw [show a + 0 = a from rfl] at hm
    simp only [fetchAPIAux, hm]
    by_cases hfz : f = 0
    · subst hfz; simp
    · simp only [hfz, if_false]
      have hall2 : ∀ j, j < f → runAttempt (t (a + 1 + j)) = Except.error (msgs (a + 1 + j)) := by
        intro j hj
        have h4 := hall (j + 1) (by omega)
        rwa [show a + (j + 1) = a + 1 + j by omega] at h4
      have h5 := ih (a + 1) (some (msgs a)) (by omega) hall2
      rw [h5, show a + 1 + f - 1 = a + (f + 1) - 1 by omega]

/-! Claim theorems for the HTTP client. -/

/-- A transport that fails twice with a network error, then succeeds. -/
def failTwiceTransport : ℕ → AttemptOutcome := fun k =>
  if k < 2 then AttemptOutcome.throwErr "network error"
  else AttemptOutcome.response 200 "OK" (Except.ok (JSVal.str "projects-data"))

/-- A transport that always fails. -/
def alwaysFailTransport : ℕ → AttemptOutcome := fun _ => AttemptOutcome.throwErr "boom"

/-- A transport whose failures carry an empty message. -/
def emptyMsgTransport : ℕ → AttemptOutcome := fun _ => AttemptOutcome.throwErr ""

/-- C3: for every `maxRetries = n`, `fetchAPI` performs at most `n + 1`
transport attempts, stops at the first successful attempt (if attempt `k
≤ n` succeeds after `k` failures, exactly `k + 1` attempts run and the
result is a success), and against a transport that fails twice then
succeeds, with `maxRetries = 3`, it returns a success result after
exactly 3 attempts. -/
theorem fetchAPI_retry_bound (t : ℕ → AttemptOutcome) (n : ℕ) (d : ℚ) :
    (fetchAPI t n d).attempts ≤ n + 1 ∧
    (∀ k, k ≤ n → (∀ j, j < k → ∃ m, runAttempt (t j) = Except.error m) →
      (∃ v, runAttempt (t k) = Except.ok v) →
      (fetchAPI t n d).attempts = k + 1 ∧ (fetchAPI t n d).result.success = true) ∧
    ((fetchAPI failTwiceTransport 3 1000).attempts = 3 ∧
      (fetchAPI failTwiceTransport 3 1000).result
        = { success := true, data := some (JSVal.str "projects-data") }) := by
  refine ⟨fetchAPIAux_attempts_le t d (n + 1) 0 none, fun k hk hprev hok => ?_, rfl, rfl⟩
  exact fetchAPIAux_first_success t d k (n + 1) 0 none (by omega)
    (by intro j hj; simpa using hprev j hj) (by simpa using hok)

/-- C3 witness: the fails-twice scenario, instantiating the first-success
clause at `k = 2`. -/
theorem fetchAPI_retry_bound_witness :
    (fetchAPI failTwiceTransport 3 1000).attempts = 2 + 1 ∧
    (fetchAPI failTwiceTransport 3 1000).result.success = true :=
  (fetchAPI_retry_bound failTwiceTransport 3 1000).2.1 2 (by omega)
    (fun j hj => by
      match j, hj with
      | 0, _ => exact ⟨"network error", rfl⟩
      | 1, _ => exact ⟨"network error", rfl⟩)
    ⟨JSVal.str "projects-data", rfl⟩

/-- C4 counterexample: the claim fails as stated.  With a negative
`retryDelay` (a run of `fetchAPI` the claim quantifies over), the delays
still follow the formula but the sequence is strictly decreasing, not
monotonically increasing. -/
theorem fetchAPI_backoff_cex :
    (fetchAPI alwaysFailTransport 2 (-1000)).delays
      = [(-1000 : ℚ) * (3 / 2) ^ (0 : ℕ), (-1000 : ℚ) * (3 / 2) ^ (1 : ℕ)] ∧
    ((-1000 : ℚ) * (3 / 2) ^ (0 : ℕ) > (-1000 : ℚ) * (3 / 2) ^ (1 : ℕ)) :=
  ⟨rfl, by norm_num⟩

/-- C4 (amended): in every run of `fetchAPI`, the k-th backoff delay
passed to `sleep` (0-indexed, occurring only between a failed attempt and
the next) equals `retryDelay * 1.5^k`; no delay follows the final attempt
(`delays.length + 1 = attempts`); and when `retryDelay` is positive the
delay sequence is strictly increasing. -/
theorem fetchAPI_backoff (t : ℕ → AttemptOutcome) (n : ℕ) (d : ℚ) :
    (∀ k, k < (fetchAPI t n d).delays.length →
      (fetchAPI t n d).delays[k]? = some (d * (3 / 2 : ℚ) ^ k)) ∧
    (fetchAPI t n d).delays.length + 1 = (fetchAPI t n d).attempts ∧
    (0 < d → ∀ (i j : ℕ) (di dj : ℚ), i < j →
      (fetchAPI t n d).delays[i]? = some di →
      (fetchAPI t n d).delays[j]? = some dj → di < dj) := by
  have hform : ∀ k, k < (fetchAPI t n d).delays.length →
      (fetchAPI t n d).delays[k]? = some (d * (3 / 2 : ℚ) ^ k) := by
    intro k hk
    simpa using fetchAPIAux_delay_formula t d (n + 1) 0 none k hk
  refine ⟨hform, fetchAPIAux_delays_len t d (n + 1) 0 none (by omega),
    fun hd i j di dj hij hi hj => ?_⟩
  have hjlen : j < (fetchAPI t n d).delays.length := by
    by_contra hc
    rw [List.getElem?_eq_none (by omega)] at hj
    exact Option.noConfusion hj
  have hilen : i < (fetchAPI t n d).delays.length := by omega
  have hi2 := (hform i hilen).symm.trans hi
  have hj2 := (hform j hjlen).symm.trans hj
  rw [Option.some_inj] at hi2 hj2
  rw [← hi2, ← hj2]
  have hpow : (3 / 2 : ℚ) ^ i < (3 / 2 : ℚ) ^ j := by
    apply pow_lt_pow_right₀ (by norm_num) hij
  exact mul_lt_mul_of_pos_left hpow hd

/-- C4 witness: with `retryDelay = 1000` and an always-failing transport
(`maxRetries = 2`), the two recorded delays follow the formula, exactly
one fewer delay than attempts is slept, and the delays increase. -/
theorem fetchAPI_backoff_witness :
    (fetchAPI alwaysFailTransport 2 1000).delays[0]?
      = some ((1000 : ℚ) * (3 / 2) ^ (0 : ℕ)) ∧
    (fetchAPI alwaysFailTransport 2 1000).delays[1]?
      = some ((1000 : ℚ) * (3 / 2) ^ (1 : ℕ)) ∧
    (fetchAPI alwaysFailTransport 2 1000).delays.length + 1
      = (fetchAPI alwaysFailTransport 2 1000).attempts ∧
    ((1000 : ℚ) * (3 / 2) ^ (0 : ℕ) < (1000 : ℚ) * (3 / 2) ^ (1 : ℕ)) := by
  have h := fetchAPI_backoff alwaysFailTransport 2 1000
  have hlen : (fetchAPI alwaysFailTransport 2 1000).delays.length = 2 := by
    have h2 := h.2.1
    rw [show (fetchAPI alwaysFailTransport 2 1000).attempts = 3 from rfl] at h2
    omega
  have h0 := h.1 0 (by omega)
  have h1 := h.1 1 (by omega)
  exact ⟨h0, h1, h.2.1, h.2.2 (by norm_num) 0 1 _ _ (by omega) h0 h1⟩

/-- C5 counterexample: the claim fails as stated.  When the last failure
message is the empty string (a possible transport behaviour), the JS `||`
fallback replaces it with the fixed default string, so the resolved error
is not the last failure message. -/
theorem fetchAPI_no_throw_cex :
    (fetchAPI emptyMsgTransport 0 1000).result
      = { success := false, error := some "Failed to fetch data from API" } ∧
    (fetchAPI emptyMsgTransport 0 1000).result.error ≠ some "" :=
  ⟨rfl, by decide⟩

/-- C5 (amended): `fetchAPI` always resolves to a tagged result (success
with no error, or failure with an error message); a JSON parse failure is
handled identically to a thrown transport failure; and when every attempt
fails, the result is `success: false` whose error is the last failure
message, or the fixed fallback string when that message is empty. -/
theorem fetchAPI_no_throw (t : ℕ → AttemptOutcome) (n : ℕ) (d : ℚ) :
    ((fetchAPI t n d).result.success = true ∧ (fetchAPI t n d).result.error = none ∨
      (fetchAPI t n d).result.success = false ∧
        ∃ m, (fetchAPI t n d).result.error = some m) ∧
    (∀ (st m : String) (s : ℕ), responseOk s = true →
      runAttempt (AttemptOutcome.response s st (Except.error m))
        = runAttempt (AttemptOutcome.throwErr m)) ∧
    (∀ msgs : ℕ → String, (∀ j, j ≤ n → runAttempt (t j) = Except.error (msgs j)) →
      (fetchAPI t n d).result
        = { success := false,
            error := some (if msgs n = "" then "Failed to fetch data from API" else msgs n) }) := by
  refine ⟨fetchAPIAux_tagged t d (n + 1) 0 none, fun st m s hs => by simp [runAttempt, hs],
    fun msgs hall => ?_⟩
  have h := fetchAPIAux_exhaust t d msgs (n + 1) 0 none (by omega)
    (by intro j hj; simpa using hall j (by omega))
  simpa [exhaustMsg] using h

/-- C5 witness: an always-failing transport with message `"boom"` and
`maxRetries = 1` resolves to the tagged failure carrying `"boom"`. -/
theorem fetchAPI_no_throw_witness :
    (fetchAPI alwaysFailTransport 1 1000).result
      = { success := false, error := some "boom" } := by
  have h := (fetchAPI_no_throw alwaysFailTransport 1 1000).2.2 (fun _ => "boom")
    (fun j hj => rfl)
  simpa using h

end Portfolio
